import Mathlib

/-!
# Verification of the nonprofit lookup pipeline (`src/__init__.py`)

A shallow embedding of the Azure-function `main` in `src/__init__.py`:
an HTTP-triggered run that downloads a spreadsheet from blob storage,
enriches each row with phone/website via an outbound local-search call,
serializes the results as CSV, uploads the artifact, and reports a JSON
response.

Modelling conventions:
* Cell values from the spreadsheet reader are `Option String`; `none`
  models the reader's `None` for an empty/absent cell (the reader yields
  uniform-width tuples, so out-of-range index access is modelled by
  `getCell`, which raises like Python's `IndexError`).
* Python exceptions are `Except String`, carrying `str(e)`.
* Each external effect's outcome is an input: the `Env` structure holds
  the connection, download, parse and upload outcomes, and an oracle
  giving the outcome of the n-th outbound search call as a function of
  the query string sent.
* The run's observable effects (blob uploads, temp-file creations and
  deletions, the table written to the CSV file) are collected in `Trace`.
* CSV bytes are modelled as `List Char` (UTF-8 encoding of a character
  sequence is itself a deterministic injective step).
-/

namespace NonprofitLookup

/-- One entry of the `resources` list in the search response JSON, with the
two optional string fields the code extracts via `result.get`. -/
structure Resource where
  phoneNumber : Option String
  website : Option String
deriving DecidableEq, Repr

/-- Outcome of navigating `data["resourceSets"][0]["resources"]` on a decoded
JSON body: either some exception during navigation (`KeyError`, `IndexError`,
`TypeError`, ...) or the resources list itself. -/
inductive Navigation where
  | navError (msg : String)
  | resources (rs : List Resource)
deriving DecidableEq, Repr

/-- Outcome of calling `response.json()`: a decode failure (raises) or a
successfully decoded body abstracted to its navigation outcome. -/
inductive JsonBody where
  | malformed (msg : String)
  | decoded (nav : Navigation)
deriving DecidableEq, Repr

/-- Outcome of one `requests.get` call: the call itself raising, or an HTTP
response with a status code and a body. -/
inductive LookupOutcome where
  | transportError (msg : String)
  | response (status : Nat) (body : JsonBody)
deriving DecidableEq, Repr

/-- The per-candidate enrichment step, lines 64-85 of `src/__init__.py`:
given the outcome of the outbound call, produce the `(phone, website)` pair,
or propagate an uncaught exception.  A non-200 status yields `("", "")`;
on status 200 the code calls `response.json()` (whose failure is *not*
inside the inner `try` and therefore propagates), then navigates to the
resources list inside `try/except` (failures absorbed to `("", "")`), takes
the first entry when the list is non-empty, and defaults each field to `""`. -/
def lookupStep : LookupOutcome → Except String (String × String)
  | .transportError m => .error m
  | .response status body =>
      if status ≠ 200 then .ok ("", "")
      else
        match body with
        | .malformed m => .error m
        | .decoded nav =>
            match nav with
            | .navError _ => .ok ("", "")
            | .resources [] => .ok ("", "")
            | .resources (r :: _) => .ok (r.phoneNumber.getD "", r.website.getD "")

/-- A worksheet row as yielded by `iter_rows(values_only=True)`: a tuple of
cell values, empty cells being `none`. -/
abbrev Row := List (Option String)

/-- Python tuple indexing `row[i]`: the value at `i`, or an `IndexError`
when the tuple is too short. -/
def getCell (row : Row) (i : Nat) : Except String (Option String) :=
  match row[i]? with
  | some v => .ok v
  | none => .error "IndexError: tuple index out of range"

/-- Python `str` applied to an optional cell value, as the f-string
interpolation `f"{org_name} {city}"` does: `None` prints as `"None"`. -/
def formatCell : Option String → String
  | none => "None"
  | some s => s

/-- The query string built on line 58: `f"{org_name} {city}"`. -/
def buildQuery (name : String) (city : Option String) : String :=
  name ++ " " ++ formatCell city

/-- The main enrichment loop, lines 48-88: iterate over the data rows with a
row counter `n` (which also counts the outbound calls made so far), breaking
once 200 result rows exist, reading `row[0]` and `row[2]` (both before the
`None` check, as in the source), skipping rows with `org_name is None`, and
otherwise recording `[org_name, phone, website]`.  Uncaught exceptions
(`IndexError`, transport errors, JSON decode errors) abort the loop. -/
def enrichLoop (lookup : Nat → String → LookupOutcome) :
    List Row → Nat → Except String (List (List String))
  | [], _ => .ok []
  | row :: rest, n =>
      if 200 ≤ n then .ok []
      else
        match getCell row 0 with
        | .error e => .error e
        | .ok orgName =>
            match getCell row 2 with
            | .error e => .error e
            | .ok city =>
                match orgName with
                | none => enrichLoop lookup rest n
                | some name =>
                    match lookupStep (lookup n (buildQuery name city)) with
                    | .error e => .error e
                    | .ok pw =>
                        match enrichLoop lookup rest (n + 1) with
                        | .error e => .error e
                        | .ok tail => .ok ([name, pw.1, pw.2] :: tail)

/-- The fixed header row appended first on lines 44-45. -/
def header : List String := ["Organisation", "Phone", "Website"]

/-- The fixed output blob name, line 91. -/
def outputFilename : String := "NonprofitLookupResults.csv"

/-- `tempfile.gettempdir()`, as a fixed path. -/
def tempDir : String := "/tmp"

/-! ## CSV serialization (`csv.writer`, lines 93-95)

`csv.writer` with the default `excel` dialect: fields joined by `,`, rows
terminated by `\r\n`, a field quoted with `"` exactly when it contains the
delimiter, the quote character, or a line-terminator character
(`QUOTE_MINIMAL`), inner quotes doubled.  The parse direction (used to state
the round-trip property; the program itself has no reader) follows the same
dialect. -/

/-- `QUOTE_MINIMAL`: a field needs quoting when it contains the delimiter,
the quote character, or a character of the line terminator. -/
def needsQuote (f : List Char) : Bool :=
  f.any fun c => c == ',' || c == '"' || c == '\r' || c == '\n'

/-- Double every quote character inside a quoted field. -/
def escQuotes (f : List Char) : List Char :=
  f.flatMap fun c => if c = '"' then ['"', '"'] else [c]

/-- Serialize one field per the `excel` dialect. -/
def serializeField (f : List Char) : List Char :=
  if needsQuote f then '"' :: (escQuotes f ++ ['"']) else f

/-- Serialize one row: comma-joined fields, `\r\n` terminator. -/
def serializeRow (fs : List (List Char)) : List Char :=
  List.intercalate [','] (fs.map serializeField) ++ ['\r', '\n']

/-- Serialize a whole table of string rows to the character content of the
CSV file. -/
def serializeTable (t : List (List String)) : List Char :=
  (t.map fun r => serializeRow (r.map String.data)).flatten

/-- CSV reading as a character-level state machine.  The `Bool` says whether
the reader is inside a quoted field; `f` holds the current field's characters
reversed, `row` the completed fields of the current row reversed, `acc` the
completed rows reversed.  Outside quotes, `,` ends a field, `\r\n` ends a
row, and a quote opening a field enters quoted mode; inside quotes a doubled
quote is a literal quote and a single quote closes the field. -/
def readCSV : Bool → List Char → List Char → List (List Char) →
    List (List (List Char)) → List (List (List Char))
  | false, [], f, row, acc =>
      if f = [] ∧ row = [] then acc.reverse
      else ((f.reverse :: row).reverse :: acc).reverse
  | false, ',' :: cs, f, row, acc => readCSV false cs [] (f.reverse :: row) acc
  | false, '\r' :: '\n' :: cs, f, row, acc =>
      readCSV false cs [] [] ((f.reverse :: row).reverse :: acc)
  | false, '"' :: cs, f, row, acc =>
      if f = [] then readCSV true cs [] row acc else readCSV false cs ('"' :: f) row acc
  | false, c :: cs, f, row, acc => readCSV false cs (c :: f) row acc
  | true, [], f, row, acc => ((f.reverse :: row).reverse :: acc).reverse
  | true, '"' :: '"' :: cs, f, row, acc => readCSV true cs ('"' :: f) row acc
  | true, '"' :: cs, f, row, acc => readCSV false cs f row acc
  | true, c :: cs, f, row, acc => readCSV true cs (c :: f) row acc

/-- Parse CSV content back into rows of strings. -/
def parseCSV (cs : List Char) : List (List String) :=
  (readCSV false cs [] [] []).map fun r => r.map String.mk

/-! ## The run (`main`, lines 24-113) -/

/-- The JSON body of the HTTP response: either the success dictionary of
line 103 or the error dictionary of line 110. -/
inductive RespBody where
  | success (message : String) (outputFile : String)
  | failure (error : String)
deriving DecidableEq, Repr

/-- The HTTP response: status code and JSON body. -/
structure Response where
  status : Nat
  body : RespBody
deriving DecidableEq, Repr

/-- Outcomes of the run's external interactions, given as inputs: the
storage connection, the blob download, the workbook parse (yielding the
active sheet's rows, header row included), the per-call search outcome
(indexed by call number and the query string sent), and the blob upload. -/
structure Env where
  excelFilename : String
  connectResult : Except String Unit
  downloadResult : Except String Unit
  parseResult : Except String (List Row)
  lookup : Nat → String → LookupOutcome
  uploadResult : Except String Unit

/-- Observable effects of one run: blob uploads performed (name and CSV
content), temp files created, temp files deleted, and the table handed to
`writer.writerows` (when reached). -/
structure Trace where
  uploads : List (String × List Char)
  fileWrites : List String
  fileDeletes : List String
  csvRows : Option (List (List String))
deriving DecidableEq, Repr

/-- The embedded `main`: the `try` body runs the stages in order, any
uncaught exception lands in the outer `except` which returns the 500
response with `str(e)`.  The temp Excel file is created (opened `"wb"`)
before the download; the temp CSV file is created after a successful
enrichment loop; no file is ever deleted. -/
def main (env : Env) : Response × Trace :=
  let excelPath := tempDir ++ "/" ++ env.excelFilename
  let csvPath := tempDir ++ "/" ++ outputFilename
  match env.connectResult with
  | .error e => (⟨500, .failure e⟩, ⟨[], [], [], none⟩)
  | .ok _ =>
      match env.downloadResult with
      | .error e => (⟨500, .failure e⟩, ⟨[], [excelPath], [], none⟩)
      | .ok _ =>
          match env.parseResult with
          | .error e => (⟨500, .failure e⟩, ⟨[], [excelPath], [], none⟩)
          | .ok rows =>
              match enrichLoop env.lookup (rows.drop 1) 0 with
              | .error e => (⟨500, .failure e⟩, ⟨[], [excelPath], [], none⟩)
              | .ok outRows =>
                  let results := header :: outRows
                  match env.uploadResult with
                  | .error e =>
                      (⟨500, .failure e⟩,
                       ⟨[], [excelPath, csvPath], [], some results⟩)
                  | .ok _ =>
                      (⟨200, .success "Lookup completed successfully" outputFilename⟩,
                       ⟨[(outputFilename, serializeTable results)],
                        [excelPath, csvPath], [], some results⟩)

/-! ## Spec-side descriptions

These two definitions follow the spec's words (section 8 of the design
document), to be compared with the loop embedded from the source: the
qualifying rows of the input, and the output rows the spec predicts for
them. -/

/-- Spec-side: the qualifying rows (non-empty organization-name cell at
index 0), each with its city cell at index 2. -/
def specQualifying (rows : List Row) : List (String × Option String) :=
  rows.filterMap fun row =>
    match row[0]?.getD none with
    | some name => some (name, row[2]?.getD none)
    | none => none

/-- Spec-side: one output row per qualifying row in order, the `k`-th built
from the `k`-th call's fields for that row's query. -/
def specOutputs (fields : Nat → String → String × String) :
    Nat → List (String × Option String) → List (List String)
  | _, [] => []
  | n, (name, city) :: qs =>
      [name, (fields n (buildQuery name city)).1, (fields n (buildQuery name city)).2]
        :: specOutputs fields (n + 1) qs

/-! ## Concrete instances used in witnesses and counterexamples -/

/-- A lookup oracle that always answers 200 with one well-formed resource. -/
def lookupHH : Nat → String → LookupOutcome := fun _ _ =>
  .response 200 (.decoded (.resources [⟨some "+49 1", some "hh.org"⟩]))

/-- The pure field function matching `lookupHH`. -/
def fieldsHH : Nat → String → String × String := fun _ _ => ("+49 1", "hh.org")

/-- A parsed input sheet: header row, a qualifying row, an empty-name row,
another qualifying row. -/
def sheetHH : List Row :=
  [[some "Name", some "Strasse", some "Ort"],
   [some "Helping Hands", none, some "Berlin"],
   [none, none, some "Munich"],
   [some "Food Bank", none, some "Cologne"]]

/-- An environment in which every external interaction succeeds. -/
def envHappy : Env :=
  ⟨"Input.xlsx", .ok (), .ok (), .ok sheetHH, lookupHH, .ok ()⟩

/-- Same input, but every search call answers 200 with a body that is not
decodable JSON, so `response.json()` raises. -/
def envMalformed : Env :=
  ⟨"Input.xlsx", .ok (), .ok (), .ok sheetHH,
   fun _ _ => .response 200 (.malformed "Expecting value: line 1 column 1 (char 0)"),
   .ok ()⟩

/-- An environment in which `load_workbook` raises. -/
def envParseFail : Env :=
  ⟨"Input.xlsx", .ok (), .ok (), .error "File is not a zip file", lookupHH, .ok ()⟩

end NonprofitLookup

namespace NonprofitLookup

/-! ## Helper lemmas -/

/-- Past the cap the loop breaks immediately, whatever rows remain. -/
theorem enrichLoop_of_cap (lookup : Nat → String → LookupOutcome) (rows : List Row)
    (n : Nat) (hn : 200 ≤ n) : enrichLoop lookup rows n = .ok [] := by
  cases rows with
  | nil => rfl
  | cons row rest => simp [enrichLoop, hn]

/-! ## C8 — the response is exactly 200-success or 500-error -/

/-- C8: for every invocation the HTTP response is exactly one of: status 200
with the fixed success message naming `NonprofitLookupResults.csv`, or
status 500 with the failure's textual description. -/
theorem response_is_200_or_500 (env : Env) :
    (main env).1 = ⟨200, .success "Lookup completed successfully" "NonprofitLookupResults.csv"⟩ ∨
      ∃ e, (main env).1 = ⟨500, .failure e⟩ := by
  obtain ⟨fn, cr, dr, pr, lk, ur⟩ := env
  rcases cr with e | u
  · exact Or.inr ⟨e, rfl⟩
  · rcases dr with e | u2
    · exact Or.inr ⟨e, rfl⟩
    · rcases pr with e | rows
      · exact Or.inr ⟨e, rfl⟩
      · rcases hE : enrichLoop lk rows.tail 0 with e | outRows
        · exact Or.inr ⟨e, by simp [main, hE]⟩
        · rcases ur with e | u3
          · exact Or.inr ⟨e, by simp [main, hE]⟩
          · exact Or.inl (by simp [main, hE, outputFilename])

/-! ## C9 — temp file cleanup -/

/-- C9 counterexample: a fully successful run creates both temp files and
returns with no deletion performed, so the temp files are not deleted
before the run returns. -/
theorem temp_files_not_deleted_on_success :
    (main envHappy).1.status = 200 ∧
    (main envHappy).2.fileWrites = ["/tmp/Input.xlsx", "/tmp/NonprofitLookupResults.csv"] ∧
    (main envHappy).2.fileDeletes = [] :=
  ⟨rfl, rfl, rfl⟩

/-- C9 amended: the run never deletes a file on any exit path; the temp
spreadsheet and CSV files it creates simply persist. -/
theorem temp_files_never_deleted (env : Env) : (main env).2.fileDeletes = [] := by
  obtain ⟨fn, cr, dr, pr, lk, ur⟩ := env
  rcases cr with e | u
  · rfl
  · rcases dr with e | u2
    · rfl
    · rcases pr with e | rows
      · rfl
      · rcases hE : enrichLoop lk rows.tail 0 with e | outRows
        · simp [main, hE]
        · rcases ur with e | u3 <;> simp [main, hE]

/-! ## C5 — the header row is always first -/

/-- C5: whenever the run builds the output table (the rows handed to the CSV
writer), its first row is exactly `["Organisation", "Phone", "Website"]`,
regardless of how many candidates qualified. -/
theorem header_always_first (env : Env) (t : List (List String))
    (h : (main env).2.csvRows = some t) :
    t.head? = some ["Organisation", "Phone", "Website"] := by
  obtain ⟨fn, cr, dr, pr, lk, ur⟩ := env
  rcases cr with e | u
  · exact absurd h (by simp [main])
  · rcases dr with e | u2
    · exact absurd h (by simp [main])
    · rcases pr with e | rows
      · exact absurd h (by simp [main])
      · rcases hE : enrichLoop lk rows.tail 0 with e | outRows
        · exact absurd h (by simp [main, hE])
        · rcases ur with e | u3 <;>
          · simp only [main, List.drop_one, hE, Option.some.injEq] at h
            subst h
            rfl

/-- C5 witness: the table built by the all-success environment starts with
the header row. -/
theorem header_always_first_witness :
    ([["Organisation", "Phone", "Website"], ["Helping Hands", "+49 1", "hh.org"],
      ["Food Bank", "+49 1", "hh.org"]] : List (List String)).head? =
      some ["Organisation", "Phone", "Website"] :=
  header_always_first envHappy _ rfl

/-! ## C1 — per-candidate failure handling -/

/-- C1 counterexample: with every stage healthy except that the search calls
answer 200 with an undecodable body, `response.json()` raises outside the
inner `try`, so the lookup failure aborts the whole run (status 500, no
upload, no CSV built) instead of degrading to an empty-fielded OutputRow. -/
theorem json_decode_failure_aborts_run :
    (main envMalformed).1 = ⟨500, .failure "Expecting value: line 1 column 1 (char 0)"⟩ ∧
    (main envMalformed).2.uploads = [] ∧ (main envMalformed).2.csvRows = none :=
  ⟨rfl, rfl, rfl⟩

/-- C1 amended: a non-success status, a navigation failure inside a decoded
body, and an empty result list are each absorbed into `("", "")` and the
loop continues with the next candidate; but a transport-level error from the
HTTP call itself, and a JSON-decode failure of a status-200 response,
propagate out of the enrichment step and abort the run. -/
theorem enrich_failure_policy :
    (∀ s body, s ≠ 200 → lookupStep (.response s body) = .ok ("", "")) ∧
    (∀ m, lookupStep (.response 200 (.decoded (.navError m))) = .ok ("", "")) ∧
    (lookupStep (.response 200 (.decoded (.resources []))) = .ok ("", "")) ∧
    (∀ m, lookupStep (.transportError m) = .error m) ∧
    (∀ m, lookupStep (.response 200 (.malformed m)) = .error m) ∧
    (∀ name x city rest lookup n p w, n < 200 →
        lookupStep (lookup n (buildQuery name city)) = .ok (p, w) →
        enrichLoop lookup ([some name, x, city] :: rest) n =
          (enrichLoop lookup rest (n + 1)).map fun t => [name, p, w] :: t) := by
  refine ⟨?_, fun m => rfl, rfl, fun m => rfl, fun m => rfl, ?_⟩
  · intro s body h
    simp [lookupStep, h]
  · intro name x city rest lookup n p w hn hl
    have h200 : ¬ 200 ≤ n := by omega
    rcases hT : enrichLoop lookup rest (n + 1) with e | tail <;>
      simp [enrichLoop, h200, getCell, hl, hT, Except.map]

/-- C1 witness: a 404 status is absorbed into empty fields, and an absorbed
per-candidate result lets the loop continue. -/
theorem enrich_failure_policy_witness :
    lookupStep (.response 404 (.decoded (.resources []))) = .ok ("", "") ∧
    enrichLoop lookupHH [[some "HH", none, none]] 0 =
      (enrichLoop lookupHH ([] : List Row) 1).map fun t => ["HH", "+49 1", "hh.org"] :: t :=
  ⟨enrich_failure_policy.1 404 (.decoded (.resources [])) (by decide),
   enrich_failure_policy.2.2.2.2.2 "HH" none none [] lookupHH 0 "+49 1" "hh.org"
     (by decide) rfl⟩

/-! ## C10 — a missing city is interpolated as the text None -/

/-- C10: for a qualifying row whose city cell (index 2) is empty/absent, the
f-string interpolation yields the literal query text `name ++ " None"` (not
`name ++ " "`, not the name alone), and that exact string is what the
outbound call receives. -/
theorem missing_city_interpolates_none (name : String) (x : Option String)
    (rest : List Row) (lookup : Nat → String → LookupOutcome) (n : Nat)
    (hn : n < 200) :
    buildQuery name none = name ++ " None" ∧
    enrichLoop lookup ([some name, x, none] :: rest) n =
      (match lookupStep (lookup n (name ++ " None")) with
       | .error e => .error e
       | .ok pw => (enrichLoop lookup rest (n + 1)).map fun t => [name, pw.1, pw.2] :: t) := by
  have hq : buildQuery name none = name ++ " None" := by
    show name ++ " " ++ "None" = name ++ " None"
    rw [String.append_assoc]
    rfl
  have h200 : ¬ 200 ≤ n := by omega
  refine ⟨hq, ?_⟩
  rcases hL : lookupStep (lookup n (name ++ " None")) with e | pw <;>
    rcases hT : enrichLoop lookup rest (n + 1) with e2 | tail <;>
      simp [enrichLoop, h200, getCell, hq, hL, hT, Except.map]

/-- C10 witness: a concrete qualifying row with an empty city cell makes the
call with the literal query text `"Helping Hands" ++ " None"`. -/
theorem missing_city_interpolates_none_witness :
    buildQuery "Helping Hands" none = "Helping Hands" ++ " None" ∧
    enrichLoop lookupHH [[some "Helping Hands", none, none]] 0 =
      (match lookupStep (lookupHH 0 ("Helping Hands" ++ " None")) with
       | .error e => .error e
       | .ok pw => (enrichLoop lookupHH ([] : List Row) 1).map
           fun t => ["Helping Hands", pw.1, pw.2] :: t) :=
  missing_city_interpolates_none "Helping Hands" none [] lookupHH 0 (by decide)

/-! ## C2 — empty-name rows are skipped without consuming the cap -/

/-- C2: a row whose organization-name cell is empty contributes nothing:
deleting it from the input leaves the loop's outcome unchanged, whatever
came before or after it and whatever the current row count — so it yields no
Candidate, no OutputRow, and no slot of the 200-row cap.  (The row must have
the contract's width of at least 3, since the source reads `row[2]` before
the name check.) -/
theorem empty_name_row_skipped (lookup : Nat → String → LookupOutcome)
    (l1 l2 : List Row) (bad : Row) (n : Nat)
    (hb : 3 ≤ bad.length) (h0 : bad[0]? = some none) :
    enrichLoop lookup (l1 ++ bad :: l2) n = enrichLoop lookup (l1 ++ l2) n := by
  induction l1 generalizing n with
  | nil =>
      simp only [List.nil_append]
      by_cases hn : 200 ≤ n
      · rw [enrichLoop_of_cap _ _ _ hn, enrichLoop_of_cap _ _ _ hn]
      · obtain ⟨v, hv⟩ : ∃ v, bad[2]? = some v :=
          ⟨_, List.getElem?_eq_getElem (by omega)⟩
        simp [enrichLoop, hn, getCell, h0, hv]
  | cons r l1 ih =>
      by_cases hn : 200 ≤ n
      · rw [List.cons_append, enrichLoop_of_cap _ _ _ hn, enrichLoop_of_cap _ _ _ hn]
      · simp only [List.cons_append, enrichLoop, hn, if_false]
        rcases hg0 : getCell r 0 with e | orgName
        · simp [hg0]
        · rcases hg2 : getCell r 2 with e | city
          · simp [hg0, hg2]
          · rcases orgName with _ | name
            · simpa [hg0, hg2] using ih n
            · rcases hL : lookupStep (lookup n (buildQuery name city)) with e | pw
              · simp [hg0, hg2, hL]
              · simp [hg0, hg2, hL, ih (n + 1)]

/-- C2 witness: deleting a concrete empty-name row between two qualifying
rows leaves the loop's outcome unchanged. -/
theorem empty_name_row_skipped_witness :
    enrichLoop lookupHH
        [[some "A", none, none], [none, none, some "Munich"], [some "B", none, none]] 0 =
      enrichLoop lookupHH [[some "A", none, none], [some "B", none, none]] 0 :=
  empty_name_row_skipped lookupHH [[some "A", none, none]] [[some "B", none, none]]
    [none, none, some "Munich"] 0 (by decide) rfl

/-! ## C3 — parse failure writes nothing; at most one upload -/

/-- C3: when the downloaded bytes cannot be parsed as a workbook the run
answers 500 carrying the parse error's text and performs no blob upload;
moreover every run uploads at most once, and any performed upload is exactly
the serialized table `header :: outRows` for a successfully completed
enrichment loop (so the artifact is written only after all candidates were
processed). -/
theorem parse_failure_writes_nothing :
    (∀ env e, env.connectResult = .ok () → env.downloadResult = .ok () →
        env.parseResult = .error e →
        (main env).1 = ⟨500, .failure e⟩ ∧ (main env).2.uploads = []) ∧
    (∀ env, (main env).2.uploads.length ≤ 1) ∧
    (∀ env nm bs, (main env).2.uploads = [(nm, bs)] →
        ∃ rows outRows, env.parseResult = .ok rows ∧
          enrichLoop env.lookup rows.tail 0 = .ok outRows ∧
          nm = outputFilename ∧ bs = serializeTable (header :: outRows)) := by
  refine ⟨?_, ?_, ?_⟩
  · intro env e hc hd hp
    constructor <;> simp [main, hc, hd, hp]
  · intro env
    obtain ⟨fn, cr, dr, pr, lk, ur⟩ := env
    rcases cr with e | u
    · simp [main]
    · rcases dr with e | u2
      · simp [main]
      · rcases pr with e | rows
        · simp [main]
        · rcases hE : enrichLoop lk rows.tail 0 with e | outRows
          · simp [main, hE]
          · rcases ur with e | u3 <;> simp [main, hE]
  · intro env nm bs h
    obtain ⟨fn, cr, dr, pr, lk, ur⟩ := env
    rcases cr with e | u
    · simp [main] at h
    · rcases dr with e | u2
      · simp [main] at h
      · rcases pr with e | rows
        · simp [main] at h
        · rcases hE : enrichLoop lk rows.tail 0 with e | outRows
          · simp [main, List.drop_one, hE] at h
          · rcases ur with e | u3
            · simp [main, List.drop_one, hE] at h
            · simp only [main, List.drop_one, hE, List.cons.injEq, Prod.mk.injEq] at h
              exact ⟨rows, outRows, rfl, hE, h.1.1.symm, h.1.2.symm⟩

/-- C3 witness: a concrete parse failure yields the 500 response with the
error text and an empty upload list. -/
theorem parse_failure_writes_nothing_witness :
    (main envParseFail).1 = ⟨500, .failure "File is not a zip file"⟩ ∧
    (main envParseFail).2.uploads = [] :=
  parse_failure_writes_nothing.1 envParseFail "File is not a zip file" rfl rfl rfl

/-! ## C4 — exactly one OutputRow per qualifying row, capped at 200 -/

/-- The spec-side output list has one row per qualifying entry. -/
theorem specOutputs_length (fields : Nat → String → String × String)
    (n : Nat) (qs : List (String × Option String)) :
    (specOutputs fields n qs).length = qs.length := by
  induction qs generalizing n with
  | nil => rfl
  | cons q qs ih => cases q; simp [specOutputs, ih]

/-- With every lookup succeeding and every row at the contract width, the
loop started at count `n ≤ 200` returns exactly the spec-side outputs of the
first `200 - n` qualifying rows. -/
theorem enrichLoop_eq_specOutputs (lookup : Nat → String → LookupOutcome)
    (fields : Nat → String → String × String)
    (hl : ∀ i q, lookupStep (lookup i q) = .ok (fields i q)) :
    ∀ (rows : List Row) (n : Nat), n ≤ 200 → (∀ row ∈ rows, 3 ≤ row.length) →
      enrichLoop lookup rows n =
        .ok (specOutputs fields n ((specQualifying rows).take (200 - n))) := by
  intro rows
  induction rows with
  | nil => intro n _ _; simp [enrichLoop, specQualifying, specOutputs]
  | cons row rest ih =>
      intro n hn hw
      have hlen : 3 ≤ row.length := hw row (List.mem_cons_self _ _)
      have hrest := fun r hr => hw r (List.mem_cons_of_mem _ hr)
      by_cases h200 : 200 ≤ n
      · have hn200 : n = 200 := le_antisymm hn h200
        subst hn200
        simp [enrichLoop, specOutputs]
      · obtain ⟨v0, hv0⟩ : ∃ v, row[0]? = some v :=
          ⟨_, List.getElem?_eq_getElem (by omega)⟩
        obtain ⟨v2, hv2⟩ : ∃ v, row[2]? = some v :=
          ⟨_, List.getElem?_eq_getElem (by omega)⟩
        rcases v0 with _ | name
        · have hq : specQualifying (row :: rest) = specQualifying rest := by
            simp [specQualifying, hv0]
          rw [show enrichLoop lookup (row :: rest) n = enrichLoop lookup rest n from by
                simp [enrichLoop, h200, getCell, hv0, hv2],
              ih n hn hrest, hq]
        · have hq : specQualifying (row :: rest) = (name, v2) :: specQualifying rest := by
            simp [specQualifying, hv0, hv2]
          have hstep : 200 - n = (200 - (n + 1)) + 1 := by omega
          rw [hq, hstep, List.take_succ_cons]
          have hrec := ih (n + 1) (by omega) hrest
          simp [enrichLoop, h200, getCell, hv0, hv2, hl, hrec, specOutputs]

/-- C4: with healthy connection/download/parse, lookups all succeeding and
rows at contract width, the table handed to the CSV writer is the header
followed by exactly one row per qualifying data row (the sheet's header row
at index 0 is skipped), in input order, capped at the first 200 qualifying
rows; and with 250 or more qualifying rows exactly 200 data rows are
produced, never more. -/
theorem first_200_qualifying_rows (env : Env) (rows : List Row)
    (fields : Nat → String → String × String)
    (hc : env.connectResult = .ok ()) (hd : env.downloadResult = .ok ())
    (hp : env.parseResult = .ok rows)
    (hw : ∀ row ∈ rows.tail, 3 ≤ row.length)
    (hl : ∀ i q, lookupStep (env.lookup i q) = .ok (fields i q)) :
    (main env).2.csvRows =
      some (header :: specOutputs fields 0 ((specQualifying rows.tail).take 200)) ∧
    (250 ≤ (specQualifying rows.tail).length →
      (specOutputs fields 0 ((specQualifying rows.tail).take 200)).length = 200) := by
  have hE := enrichLoop_eq_specOutputs env.lookup fields hl rows.tail 0 (by omega) hw
  rw [Nat.sub_zero] at hE
  constructor
  · rcases hu : env.uploadResult with e | u3 <;>
      simp [main, hc, hd, hp, hu, List.drop_one, hE]
  · intro h250
    rw [specOutputs_length, List.length_take]
    omega

/-- C4 witness: the all-success environment produces exactly the spec-side
outputs for its two qualifying rows, after the header. -/
theorem first_200_qualifying_rows_witness :
    (main envHappy).2.csvRows =
      some (header :: specOutputs fieldsHH 0 ((specQualifying sheetHH.tail).take 200)) :=
  (first_200_qualifying_rows envHappy sheetHH fieldsHH rfl rfl rfl (by decide)
    (fun i q => rfl)).1

/-! ## C6 — the first result entry is selected -/

/-- C6: a successful (status 200) lookup whose decoded body has a non-empty
resources list is resolved from the *first* entry, each of the two fields
independently defaulting to `""` when absent. -/
theorem first_result_entry_selected (r : Resource) (rs : List Resource) :
    lookupStep (.response 200 (.decoded (.resources (r :: rs)))) =
      .ok (r.phoneNumber.getD "", r.website.getD "") := rfl

/-! ## C7 — CSV serialization is deterministic and round-trips

Step lemmas for the reader state machine, then consumption lemmas for one
field, one row, and the whole table. -/

theorem readCSV_comma (cs f row acc) :
    readCSV false (',' :: cs) f row acc = readCSV false cs [] (f.reverse :: row) acc := rfl

theorem readCSV_crlf (cs f row acc) :
    readCSV false ('\r' :: '\n' :: cs) f row acc =
      readCSV false cs [] [] ((f.reverse :: row).reverse :: acc) := rfl

theorem readCSV_openQuote (cs row acc) :
    readCSV false ('"' :: cs) [] row acc = readCSV true cs [] row acc := rfl

theorem readCSV_other (c : Char) (cs f row acc)
    (h1 : c ≠ ',') (h2 : c ≠ '"') (h3 : c ≠ '\r') :
    readCSV false (c :: cs) f row acc = readCSV false cs (c :: f) row acc := by
  simp [readCSV, h1, h2, h3]

theorem readCSV_inQuote_doubled (cs f row acc) :
    readCSV true ('"' :: '"' :: cs) f row acc = readCSV true cs ('"' :: f) row acc := rfl

theorem readCSV_inQuote_other (c : Char) (cs f row acc) (h : c ≠ '"') :
    readCSV true (c :: cs) f row acc = readCSV true cs (c :: f) row acc := by
  simp [readCSV, h]

theorem readCSV_closeQuote (c : Char) (cs f row acc) (h : c ≠ '"') :
    readCSV true ('"' :: c :: cs) f row acc = readCSV false (c :: cs) f row acc := by
  simp [readCSV, h]

theorem readCSV_closeQuote_nil (f row acc) :
    readCSV true ['"'] f row acc = readCSV false [] f row acc := rfl

/-- An unquoted serialized field contains none of the four special
characters. -/
theorem needsQuote_eq_false {f : List Char} (h : needsQuote f = false) :
    ∀ c ∈ f, ¬(c = ',' ∨ c = '"' ∨ c = '\r' ∨ c = '\n') := by
  simp only [needsQuote, List.any_eq_false, Bool.or_eq_true, beq_iff_eq] at h
  intro c hc hor
  exact h c hc (by tauto)

/-- The reader copies a run of plain characters into the current field. -/
theorem readCSV_copy_plain (f : List Char)
    (hf : ∀ c ∈ f, ¬(c = ',' ∨ c = '"' ∨ c = '\r' ∨ c = '\n')) :
    ∀ cs g row acc,
      readCSV false (f ++ cs) g row acc = readCSV false cs (f.reverse ++ g) row acc := by
  induction f with
  | nil => intro cs g row acc; simp
  | cons c f ih =>
      intro cs g row acc
      have hc := hf c (List.mem_cons_self _ _)
      push_neg at hc
      obtain ⟨h1, h2, h3, h4⟩ := hc
      rw [List.cons_append, readCSV_other c _ _ _ _ h1 h2 h3,
          ih (fun d hd => hf d (List.mem_cons_of_mem _ hd))]
      simp

/-- Inside quotes the reader undoes the quote doubling of `escQuotes`. -/
theorem readCSV_copy_quoted (f : List Char) :
    ∀ cs g row acc,
      readCSV true (escQuotes f ++ cs) g row acc = readCSV true cs (f.reverse ++ g) row acc := by
  induction f with
  | nil => intro cs g row acc; simp [escQuotes]
  | cons c f ih =>
      intro cs g row acc
      by_cases hc : c = '"'
      · subst hc
        rw [show escQuotes ('"' :: f) = '"' :: '"' :: escQuotes f from by simp [escQuotes]]
        rw [List.cons_append, List.cons_append, readCSV_inQuote_doubled, ih]
        simp
      · rw [show escQuotes (c :: f) = c :: escQuotes f from by simp [escQuotes, hc]]
        rw [List.cons_append, readCSV_inQuote_other c _ _ _ _ hc, ih]
        simp

/-- Consuming one serialized field (in either quoting mode) accumulates
exactly that field, provided the next character is not a quote. -/
theorem readCSV_field (f : List Char) (cs : List Char) (row acc)
    (hcs : cs.head? ≠ some '"') :
    readCSV false (serializeField f ++ cs) [] row acc = readCSV false cs f.reverse row acc := by
  by_cases hq : needsQuote f
  · simp only [serializeField, if_pos hq]
    rw [List.cons_append, readCSV_openQuote, List.append_assoc,
        show ['"'] ++ cs = '"' :: cs from rfl, readCSV_copy_quoted, List.append_nil]
    cases cs with
    | nil => rw [readCSV_closeQuote_nil]
    | cons d cs2 =>
        have hd : d ≠ '"' := fun hdd => hcs (by simp [hdd])
        rw [readCSV_closeQuote d _ _ _ _ hd]
  · simp only [serializeField, if_neg hq]
    rw [readCSV_copy_plain f (needsQuote_eq_false (by simpa using hq)), List.append_nil]

/-- `List.intercalate` on two or more chunks peels off the first chunk and
one separator. -/
theorem intercalate_comma_cons (a b : List Char) (l : List (List Char)) :
    List.intercalate [','] (a :: b :: l) = a ++ ',' :: List.intercalate [','] (b :: l) := by
  simp [List.intercalate, List.intersperse]

/-- Consuming one serialized row body plus its terminator finishes exactly
that row. -/
theorem readCSV_rowBody : ∀ (fs : List (List Char)), fs ≠ [] → ∀ cs row acc,
    readCSV false
        (List.intercalate [','] (fs.map serializeField) ++ '\r' :: '\n' :: cs) [] row acc
      = readCSV false cs [] [] ((row.reverse ++ fs) :: acc) := by
  intro fs
  induction fs with
  | nil => intro h; exact absurd rfl h
  | cons f fs ih =>
      intro _ cs row acc
      cases fs with
      | nil =>
          rw [show List.intercalate [','] ([f].map serializeField) = serializeField f from by
                simp [List.intercalate]]
          rw [readCSV_field f _ _ _ (by simp), readCSV_crlf]
          simp
      | cons f2 fs2 =>
          rw [List.map_cons, List.map_cons, intercalate_comma_cons, List.append_assoc,
              List.cons_append]
          rw [readCSV_field f _ _ _ (by simp), readCSV_comma, List.reverse_reverse]
          rw [show serializeField f2 :: fs2.map serializeField =
                (f2 :: fs2).map serializeField from by simp]
          rw [ih (by simp) cs (f :: row) acc]
          simp

/-- Consuming the whole serialized table recovers the table, for tables with
no empty row. -/
theorem readCSV_table : ∀ (t : List (List (List Char))), (∀ r ∈ t, r ≠ []) → ∀ acc,
    readCSV false ((t.map serializeRow).flatten) [] [] acc = acc.reverse ++ t := by
  intro t
  induction t with
  | nil => intro _ acc; simp [readCSV]
  | cons r t ih =>
      intro h acc
      rw [List.map_cons, List.flatten_cons, serializeRow, List.append_assoc,
          show ['\r', '\n'] ++ (t.map serializeRow).flatten =
            '\r' :: '\n' :: (t.map serializeRow).flatten from rfl]
      rw [readCSV_rowBody r (h r (List.mem_cons_self _ _)) _ [] acc]
      rw [show ((([] : List (List Char)).reverse ++ r) :: acc) = r :: acc from by simp]
      rw [ih (fun x hx => h x (List.mem_cons_of_mem _ hx)) (r :: acc)]
      simp

/-- Round trip at the `String` table level, for tables with no empty row. -/
theorem parseCSV_serializeTable (t : List (List String)) (h : ∀ r ∈ t, r ≠ []) :
    parseCSV (serializeTable t) = t := by
  have h2 : ∀ r ∈ t.map (fun r => r.map String.data), r ≠ [] := by
    intro r hr
    obtain ⟨r0, hr0, rfl⟩ := List.mem_map.mp hr
    simpa using h r0 hr0
  have ht := readCSV_table (t.map fun r => r.map String.data) h2 []
  unfold parseCSV serializeTable
  rw [show (t.map fun r => serializeRow (r.map String.data)) =
        (t.map fun r => r.map String.data).map serializeRow from by simp [List.map_map]]
  rw [ht]
  have hmk : (String.mk ∘ String.data) = id := funext fun s => rfl
  simp [List.map_map, hmk]

/-- Every data row the loop emits is `[name, phone, website]`. -/
theorem enrichLoop_rows_length (lookup : Nat → String → LookupOutcome) :
    ∀ rows n out, enrichLoop lookup rows n = .ok out → ∀ r ∈ out, r.length = 3 := by
  intro rows
  induction rows with
  | nil =>
      intro n out h r hr
      simp only [enrichLoop, Except.ok.injEq] at h
      subst h
      simp at hr
  | cons row rest ih =>
      intro n out h r hr
      by_cases hn : 200 ≤ n
      · rw [enrichLoop_of_cap _ _ _ hn] at h
        simp only [Except.ok.injEq] at h
        subst h
        simp at hr
      · rcases hg0 : getCell row 0 with e | v0
        · simp [enrichLoop, hn, hg0] at h
        · rcases hg2 : getCell row 2 with e | v2
          · simp [enrichLoop, hn, hg0, hg2] at h
          · rcases v0 with _ | name
            · have h2 : enrichLoop lookup rest n = .ok out := by
                rw [← h]
                simp [enrichLoop, hn, hg0, hg2]
              exact ih n out h2 r hr
            · rcases hL : lookupStep (lookup n (buildQuery name v2)) with e | pw
              · simp [enrichLoop, hn, hg0, hg2, hL] at h
              · rcases hT : enrichLoop lookup rest (n + 1) with e | tail
                · simp [enrichLoop, hn, hg0, hg2, hL, hT] at h
                · have h2 : [name, pw.1, pw.2] :: tail = out := by
                    rw [show enrichLoop lookup (row :: rest) n =
                          .ok ([name, pw.1, pw.2] :: tail) from by
                        simp [enrichLoop, hn, hg0, hg2, hL, hT]] at h
                    exact (Except.ok.inj h)
                  subst h2
                  rcases List.mem_cons.mp hr with hr | hr
                  · subst hr; rfl
                  · exact ih (n + 1) tail hT r hr

/-- C7: serialization of the output table is deterministic (equal tables
give equal bytes) and round-trips — parsing the serialized CSV back yields
the table — both for any table with no empty row and in particular for every
table the enrichment loop produces (whose rows all have three fields). -/
theorem serialize_deterministic_roundtrip :
    (∀ t1 t2 : List (List String), t1 = t2 → serializeTable t1 = serializeTable t2) ∧
    (∀ t : List (List String), (∀ r ∈ t, r ≠ []) → parseCSV (serializeTable t) = t) ∧
    (∀ lookup rows outRows, enrichLoop lookup rows 0 = .ok outRows →
        parseCSV (serializeTable (header :: outRows)) = header :: outRows) := by
  refine ⟨fun t1 t2 h => by rw [h], parseCSV_serializeTable, ?_⟩
  intro lookup rows outRows h
  apply parseCSV_serializeTable
  intro r hr
  rcases List.mem_cons.mp hr with hr | hr
  · subst hr; simp [header]
  · have h3 := enrichLoop_rows_length lookup rows 0 outRows h r hr
    intro hnil
    rw [hnil] at h3
    simp at h3

/-- C7 witness: determinism and the round trip on a concrete table whose
fields exercise the delimiter, quote and newline escaping, plus the round
trip on a concrete loop output. -/
theorem serialize_deterministic_roundtrip_witness :
    serializeTable [["Helping Hands", "+49 1", "hh.org"]] =
      serializeTable [["Helping Hands", "+49 1", "hh.org"]] ∧
    parseCSV (serializeTable [["Organisation", "Phone", "Website"],
        ["a,b", "c\"d", "e\r\nf"], ["", "", ""]]) =
      [["Organisation", "Phone", "Website"], ["a,b", "c\"d", "e\r\nf"], ["", "", ""]] ∧
    parseCSV (serializeTable (header :: [["HH", "+49 1", "hh.org"]])) =
      header :: [["HH", "+49 1", "hh.org"]] :=
  ⟨serialize_deterministic_roundtrip.1 _ _ rfl,
   serialize_deterministic_roundtrip.2.1 _ (by decide),
   serialize_deterministic_roundtrip.2.2 lookupHH [[some "HH", none, none]]
     [["HH", "+49 1", "hh.org"]] rfl⟩

end NonprofitLookup
